import Mathlib

/-!
Shallow embedding of the bird-intelligence-system repository
(`scripts/social/bird-utils.js` and `scripts/social/bird-competitive-intel.js`)
and proofs about it.

JavaScript numbers on the values occurring here are nonnegative integers and
exact rationals; `Math.round` is modelled as `⌊q + 1/2⌋` (round half toward
+∞), which is exact for the magnitudes involved.  Dynamic property access on
records that may lack a field is modelled with `Option`; the JS idiom
`x?.f || 0` becomes an `Option`-lookup with default `0`, and `a || b` on
strings (where the empty string is falsy) is modelled explicitly.
-/

namespace BirdIntel

/-- `Math.round` on an exact rational: `⌊q + 1/2⌋` (JS rounds half toward +∞). -/
def jsRound (q : ℚ) : ℤ := ⌊q + 1/2⌋

/-- Does the character list `s` start with the character list `pre`? -/
def charsStartWith : List Char → List Char → Bool
  | _, [] => true
  | [], _ :: _ => false
  | c :: cs, d :: ds => c == d && charsStartWith cs ds

/-- Does the character list `s` contain `sub` as a contiguous run?  Models
`String.prototype.includes`. -/
def charsContain (s sub : List Char) : Bool :=
  match s with
  | [] => sub.isEmpty
  | _ :: t => charsStartWith s sub || charsContain t sub

/-- `s.includes(sub)` from JavaScript. -/
def strIncludes (s sub : String) : Bool := charsContain s.data sub.data

/-- `s.toLowerCase()` (per-character lowering; the analysed texts are ASCII). -/
def strToLower (s : String) : String := ⟨s.data.map Char.toLower⟩

/-- JS `a || b` on two possibly-undefined strings: the empty string is falsy. -/
def strOr (a b : Option String) : Option String :=
  match a with
  | some s => if s.isEmpty then b else some s
  | none => b

/-! ## Execution Gateway (`bird-utils.js`, `executeCommand`) -/

/-- Outcome of one spawn of the external `bird` process: its stdout on
success, or the thrown error's message on failure. -/
inductive AttemptOutcome where
  | success (stdout : String)
  | failure (msg : String)
deriving DecidableEq

/-- Behaviour of the external tool: what the `n`-th attempt (0-based) of a
given invocation does.  The command and arguments are fixed for a given
oracle. -/
def ToolOracle : Type := Nat → AttemptOutcome

/-- Result of `executeCommand`: the returned stdout, the wrapped
authentication error, the rethrown last transient error, or the fallback
error thrown when no attempt was ever made (`retries ≤ 0`). -/
inductive ExecOutcome where
  | ok (stdout : String)
  | authError (msg : String)
  | lastError (msg : String)
  | noAttemptError (msg : String)
deriving DecidableEq

/-- `executeCommand` together with the number of attempts it made. -/
structure ExecTrace where
  attemptsMade : Nat
  outcome : ExecOutcome
deriving DecidableEq

/-- The auth-detection heuristic on line 85 of `bird-utils.js`:
`error.message.includes("auth") || error.message.includes("cookie")`. -/
def isAuthMsg (msg : String) : Bool := strIncludes msg "auth" || strIncludes msg "cookie"

/-- `jsonArgs` and `finalArgs` from `executeCommand`: append `--json` when the
format is `json` and the caller did not already pass it. -/
def buildFinalArgs (command : String) (args : List String) (format : String) : List String :=
  command :: args ++ (if format == "json" && !(args.contains "--json") then ["--json"] else [])

/-- The retry loop of `executeCommand` (lines 75–94): `attempt` is the loop
counter, `lastErr` the `lastError` variable, and the structural fuel
`remaining` equals `retries - attempt`, so `remaining = 0` is exactly the
loop exit condition `¬(attempt < retries)`.  Each iteration asks the oracle
for the outcome of that attempt; an auth-looking failure aborts immediately,
other failures are retried after a delay (irrelevant to the value). -/
def executeCommandGo (world : ToolOracle) (attempt : Nat) (lastErr : Option String)
    (defaultMsg : String) : Nat → ExecTrace
  | 0 =>
    ⟨attempt,
      match lastErr with
      | some m => .lastError m
      | none => .noAttemptError defaultMsg⟩
  | remaining + 1 =>
    match world attempt with
    | .success out => ⟨attempt + 1, .ok out⟩
    | .failure msg =>
      if isAuthMsg msg then ⟨attempt + 1, .authError msg⟩
      else executeCommandGo world (attempt + 1) (some msg) defaultMsg remaining

/-- `BirdUtils.executeCommand(command, args, {retries, format})` modelled over
an oracle for the external tool. -/
def executeCommand (command : String) (args : List String) (retries : Nat) (format : String)
    (world : ToolOracle) : ExecTrace :=
  let finalArgs := buildFinalArgs command args format
  executeCommandGo world 0 none
    ("Command failed after " ++ toString retries ++ " retries: " ++ command ++ " "
      ++ String.intercalate " " finalArgs)
    retries

/-! ## JSON parsing and the fetch wrappers (`bird-utils.js`) -/

/-- JSON values as produced by `JSON.parse` on the tool's stdout. -/
inductive JsonVal where
  | arr (elems : List JsonVal)
  | obj (fields : List (String × String))
  | str (s : String)
  | num (n : Int)
  | bool (b : Bool)
  | null

/-- Is this value a JSON array?  Models `Array.isArray`. -/
def JsonVal.isArr : JsonVal → Bool
  | .arr _ => true
  | _ => false

/-- The elements of an array value (used when `Array.isArray(parsed)` holds). -/
def JsonVal.elems : JsonVal → List JsonVal
  | .arr xs => xs
  | _ => []

/-- Behaviour of the platform's `JSON.parse`: `none` models a thrown
`SyntaxError` on malformed input. -/
def JsonParser : Type := String → Option JsonVal

/-- `BirdUtils.parseJSON`: wraps `JSON.parse`, rethrowing a parse failure with
a parse-specific message. -/
def parseJSON (parse : JsonParser) (jsonString : String) : Except String JsonVal :=
  match parse jsonString with
  | some v => .ok v
  | none => .error ("Failed to parse bird JSON output: " ++ jsonString)

/-- The shared body of the list-returning fetch wrappers: run the command,
parse the JSON, normalize `Array.isArray(parsed) ? parsed : [parsed]`; any
thrown error (execution or parse) is caught and yields `[]`. -/
def fetchList (parse : JsonParser) (command : String) (args : List String)
    (world : ToolOracle) : List JsonVal :=
  match (executeCommand command args 3 "json" world).outcome with
  | .ok out =>
    match parseJSON parse out with
    | .ok parsed => if parsed.isArr then parsed.elems else [parsed]
    | .error _ => []
  | _ => []

/-- `BirdUtils.search(query, {limit})`. -/
def search (parse : JsonParser) (query : String) (limit : Nat) (world : ToolOracle) :
    List JsonVal :=
  fetchList parse "search" ["-n", toString limit, query] world

/-- `BirdUtils.getMentions({limit})`. -/
def getMentions (parse : JsonParser) (limit : Nat) (world : ToolOracle) : List JsonVal :=
  fetchList parse "mentions" ["-n", toString limit] world

/-- `BirdUtils.getBookmarks({limit})`. -/
def getBookmarks (parse : JsonParser) (limit : Nat) (world : ToolOracle) : List JsonVal :=
  fetchList parse "bookmarks" ["-n", toString limit] world

/-- `BirdUtils.getReplies(tweetId, {limit})`. -/
def getReplies (parse : JsonParser) (tweetId : String) (limit : Nat) (world : ToolOracle) :
    List JsonVal :=
  fetchList parse "replies" ["-n", toString limit, tweetId] world

/-- `BirdUtils.getThread(tweetId)`. -/
def getThread (parse : JsonParser) (tweetId : String) (world : ToolOracle) : List JsonVal :=
  fetchList parse "thread" [tweetId] world

/-- `BirdUtils.readTweet(tweetId)`: returns the parsed value as-is (no
array normalization); any thrown error is caught and yields `null`. -/
def readTweet (parse : JsonParser) (tweetId : String) (world : ToolOracle) : Option JsonVal :=
  match (executeCommand "read" [tweetId] 3 "json" world).outcome with
  | .ok out =>
    match parseJSON parse out with
    | .ok parsed => some parsed
    | .error _ => none
  | _ => none

/-! ## Raw post records (loosely-typed output of the external tool) -/

/-- The `public_metrics` sub-record of a raw tweet; every count may be
missing (`undefined`). -/
structure PublicMetrics where
  like_count : Option Nat
  retweet_count : Option Nat
  reply_count : Option Nat
  quote_count : Option Nat

/-- A raw post record from the external tool; the shape is loosely typed, so
every field may be absent. -/
structure Post where
  text : Option String
  full_text : Option String
  author_handle : Option String
  user_screen_name : Option String
  created_at : Option String
  public_metrics : Option PublicMetrics

/-- `t.public_metrics?.like_count || 0`. -/
def likeCount (t : Post) : Nat := (t.public_metrics.bind (·.like_count)).getD 0

/-- `t.public_metrics?.retweet_count || 0`. -/
def retweetCount (t : Post) : Nat := (t.public_metrics.bind (·.retweet_count)).getD 0

/-- `t.public_metrics?.reply_count || 0`. -/
def replyCount (t : Post) : Nat := (t.public_metrics.bind (·.reply_count)).getD 0

/-- `t.text || t.full_text`: `none` models `undefined`, on which a subsequent
`.toLowerCase()` would throw. -/
def postTextJS (t : Post) : Option String := strOr t.text t.full_text

/-! ## Aggregation helpers (`bird-competitive-intel.js`) -/

/-- The rounded engagement averages (`Math.round` results are integers). -/
structure Engagement where
  likes : ℤ
  retweets : ℤ
  replies : ℤ

/-- Accumulator of the `reduce` in `calculateAverageEngagement`. -/
structure EngagementTotals where
  likes : Nat
  retweets : Nat
  replies : Nat

/-- `calculateAverageEngagement(tweets)` (lines 197–211): zero-filled for the
empty list, otherwise the mean of each metric rounded with `Math.round`. -/
def calculateAverageEngagement (tweets : List Post) : Engagement :=
  if tweets.length = 0 then ⟨0, 0, 0⟩ else
  let totals := tweets.foldl
    (fun (acc : EngagementTotals) t =>
      ⟨acc.likes + likeCount t, acc.retweets + retweetCount t, acc.replies + replyCount t⟩)
    ⟨0, 0, 0⟩
  ⟨jsRound ((totals.likes : ℚ) / tweets.length),
   jsRound ((totals.retweets : ℚ) / tweets.length),
   jsRound ((totals.replies : ℚ) / tweets.length)⟩

/-- One entry of the ranked theme list. -/
structure ThemeEntry where
  theme : String
  frequency : Nat
deriving DecidableEq

/-- `themes[k] = (themes[k] || 0) + 1` on a JS object modelled as an
insertion-ordered association list. -/
def bumpTheme : List (String × Nat) → String → List (String × Nat)
  | [], k => [(k, 1)]
  | (k', c) :: rest, k =>
    if k' == k then (k', c + 1) :: rest else (k', c) :: bumpTheme rest k

/-- `acc[k] = (acc[k] || 0) + n` on an insertion-ordered association list. -/
def bumpThemeBy : List (String × Nat) → String → Nat → List (String × Nat)
  | [], k, n => [(k, n)]
  | (k', c) :: rest, k, n =>
    if k' == k then (k', c + n) :: rest else (k', c) :: bumpThemeBy rest k n

/-- Stable sort, descending by `key`: `Array.prototype.sort` with comparator
`(a, b) => key(b) - key(a)` is a stable descending sort, and stable insertion
sort produces exactly that order. -/
def sortDescBy (key : α → Nat) (l : List α) : List α :=
  l.insertionSort (fun a b => key b ≤ key a)

/-- The body of the outer `forEach` of `extractThemes`: for one tweet text,
bump the count of every configured keyword the lowercased text contains. -/
def themeStep (keywords : List String) (m : List (String × Nat)) (raw : String) :
    List (String × Nat) :=
  let text := strToLower raw
  keywords.foldl
    (fun m keyword =>
      if strIncludes text (strToLower keyword) then bumpTheme m keyword else m)
    m

/-- The nested counting loops of `extractThemes` over all tweet texts. -/
def themesFold (keywords : List String) (rawTexts : List String) : List (String × Nat) :=
  rawTexts.foldl (themeStep keywords) []

/-- `extractThemes(tweets)` (lines 216–232) with the configured keyword list:
count, per keyword, the tweets whose lowercased text contains it, then rank
descending by frequency.  `none` models the `TypeError` thrown when a tweet
has neither `text` nor `full_text`. -/
def extractThemes (keywords : List String) (tweets : List Post) : Option (List ThemeEntry) :=
  match tweets.mapM postTextJS with
  | none => none
  | some rawTexts =>
    some (sortDescBy ThemeEntry.frequency
      ((themesFold keywords rawTexts).map fun p => ⟨p.1, p.2⟩))

/-- Result of `assessCollaborationPotential`. -/
structure CollabAssessment where
  score : ℤ
  level : String
  reasoning : String

/-- `assessCollaborationPotential(tweets)` (lines 237–254). -/
def assessCollaborationPotential (tweets : List Post) : CollabAssessment :=
  let avgEngagement := calculateAverageEngagement tweets
  let score : ℤ := min 100 (jsRound
    (((avgEngagement.likes : ℚ) * (3/10) + (avgEngagement.retweets : ℚ) * (4/10)
      + (avgEngagement.replies : ℚ) * (3/10)) / 10))
  { score := score
    level := if score > 70 then "high" else if score > 40 then "medium" else "low"
    reasoning :=
      if score > 70 then "Strong engagement - excellent collaboration target"
      else if score > 40 then "Moderate engagement - consider for partnerships"
      else "Lower engagement - monitor before outreach" }

/-- Result of `calculateTrendStrength`. -/
structure TrendStrength where
  score : ℤ
  level : String
deriving DecidableEq

/-- `calculateTrendStrength(tweets)` (lines 259–267): note that the banding
tests the unrounded `strength`, while `score` is its rounding. -/
def calculateTrendStrength (tweets : List Post) : TrendStrength :=
  let avgEngagement := calculateAverageEngagement tweets
  let strength : ℚ := ((avgEngagement.likes : ℚ) + (avgEngagement.retweets : ℚ)) / 2
  { score := jsRound strength
    level := if strength > 100 then "strong" else if strength > 50 then "moderate" else "weak" }

/-- A canonical content angle: keyword searched for, weight tag reported. -/
structure Angle where
  keyword : String
  weight : String

/-- The fixed list of canonical angles (lines 274–280). -/
def contentAngles : List Angle :=
  [⟨"how to", "tactical"⟩, ⟨"why", "educational"⟩, ⟨"case study", "proof"⟩,
   ⟨"mistake", "contrarian"⟩, ⟨"framework", "systematic"⟩]

/-- `found[angle.weight] = true` on a JS object modelled as an
insertion-ordered key list (`Object.keys` order). -/
def addFoundKey (l : List String) (k : String) : List String :=
  if l.contains k then l else l ++ [k]

/-- `identifyContentGaps(tweets)` (lines 272–292): the weight tags of the
angles whose keyword is absent from the space-joined lowercased post text.
`none` models the `TypeError` thrown when a tweet has no text. -/
def identifyContentGaps (tweets : List Post) : Option (List String) :=
  match tweets.mapM postTextJS with
  | none => none
  | some rawTexts =>
    let text := String.intercalate " " (rawTexts.map strToLower)
    some (contentAngles.foldl
      (fun found angle =>
        if strIncludes text angle.keyword then found else addFoundKey found angle.weight)
      [])

/-! ## Report structures and the report-stage functions -/

/-- The per-tweet `engagement` sub-record stored in `topTweets`. -/
structure TweetEngagement where
  likes : Nat
  retweets : Nat
  replies : Nat

/-- One element of a `topTweets` list: shape
`{text, author?, engagement, createdAt}`; `author` is only set by the trends
mapping. -/
structure TopTweet where
  text : Option String
  author : Option String
  engagement : TweetEngagement
  createdAt : Option String

/-- The `topTweets` mapping used for competitors and influencers
(lines 95–103 and 133–141). -/
def toTopTweet (t : Post) : TopTweet :=
  { text := strOr t.text t.full_text
    author := none
    engagement := ⟨likeCount t, retweetCount t, replyCount t⟩
    createdAt := t.created_at }

/-- The `topTweets` mapping used for trends (lines 171–180), which also
records `author: t.author_handle || t.user?.screen_name`. -/
def toTrendTopTweet (t : Post) : TopTweet :=
  { toTopTweet t with author := strOr t.author_handle t.user_screen_name }

/-- JS property access on a top-tweet record when it is fed back into
`calculateAverageEngagement` (line 373): the record's shape is
`{text, engagement, createdAt}`, so reading `public_metrics` (or `full_text`)
yields `undefined`. -/
def TopTweet.asPost (t : TopTweet) : Post :=
  { text := t.text
    full_text := none
    author_handle := none
    user_screen_name := none
    created_at := t.createdAt
    public_metrics := none }

/-- A competitor analysis entry (lines 92–106). -/
structure CompetitorAnalysis where
  handle : String
  tweetsAnalyzed : Nat
  topTweets : List TopTweet
  averageEngagement : Engagement
  contentThemes : List ThemeEntry

/-- An influencer analysis entry (lines 130–145). -/
structure InfluencerAnalysis where
  handle : String
  tweetsAnalyzed : Nat
  topTweets : List TopTweet
  averageEngagement : Engagement
  contentThemes : List ThemeEntry
  collaborationPotential : CollabAssessment

/-- A trend entry (lines 168–183). -/
structure TrendEntry where
  keyword : String
  tweetsFound : Nat
  topTweets : List TopTweet
  trendStrength : TrendStrength
  contentGaps : List String

/-- An insight pushed by `generateInsights`; `targets`/`trends` are present
only on some insight kinds. -/
structure Insight where
  type : String
  description : String
  targets : Option (List String) := none
  trends : Option (List String) := none
  actionable : String

/-- A recommendation pushed by `generateRecommendations`;
`content`/`strategy`/`frequency` are present only on some kinds. -/
structure Recommendation where
  type : String
  content : Option String := none
  strategy : Option String := none
  frequency : Option String := none
  priority : String
  reasoning : String

/-- The summary block added by `saveReport`. -/
structure ReportSummary where
  competitorsTracked : Nat
  influencersTracked : Nat
  trendsIdentified : Nat
  insightsGenerated : Nat
  recommendationsProvided : Nat
deriving DecidableEq

/-- The in-progress report object (`this.report`); `summary` is absent until
`saveReport` adds it. -/
structure Report where
  brand : String
  timestamp : String
  competitors : List CompetitorAnalysis
  influencers : List InfluencerAnalysis
  trends : List TrendEntry
  insights : List Insight
  recommendations : List Recommendation
  summary : Option ReportSummary := none

/-- `topTheme?.[0] || "unknown"` from JS, where the empty string is falsy. -/
def topThemeName (topTheme : Option (String × Nat)) : String :=
  match topTheme with
  | some p => if p.1.isEmpty then "unknown" else p.1
  | none => "unknown"

/-- `topTheme?.[1] || 0`. -/
def topThemeCount (topTheme : Option (String × Nat)) : Nat :=
  match topTheme with
  | some p => p.2
  | none => 0

/-- `generateInsights()` (lines 297–348): returns the value of
`this.report.insights` after the three conditional pushes. -/
def generateInsights (r : Report) : List Insight :=
  let afterCompetitors :=
    if r.competitors.length > 0 then
      let competitorThemes := (r.competitors.flatMap (·.contentThemes)).foldl
        (fun acc t => bumpThemeBy acc t.theme t.frequency) []
      let topTheme := (sortDescBy Prod.snd competitorThemes).head?
      let insight1 : Insight :=
        { type := "competitor-positioning",
          description := "Competitors heavily focus on \"" ++ topThemeName topTheme ++ "\" ("
            ++ toString (topThemeCount topTheme) ++ " mentions)",
          actionable :=
            "Consider differentiating with other angles like frameworks, case studies, or contrarian takes" }
      r.insights ++ [insight1]
    else r.insights
  let afterInfluencers :=
    if r.influencers.length > 0 then
      let highPotential := r.influencers.filter (fun i => i.collaborationPotential.score > 70)
      if highPotential.length > 0 then
        let insight2 : Insight :=
          { type := "collaboration-opportunity",
            description := toString highPotential.length ++ " influencer(s) with high collaboration potential",
            targets := some (highPotential.map (fun i => "@" ++ i.handle)),
            actionable := "Prioritize outreach to high-potential influencers" }
        afterCompetitors ++ [insight2]
      else afterCompetitors
    else afterCompetitors
  if r.trends.length > 0 then
    let strongTrends := r.trends.filter (fun t => t.trendStrength.level == "strong")
    if strongTrends.length > 0 then
      let insight3 : Insight :=
        { type := "trend-opportunity",
          description := toString strongTrends.length ++ " strong trend(s) in niche",
          trends := some (strongTrends.map
            (fun t => "\"" ++ t.keyword ++ "\" (strength: " ++ toString t.trendStrength.score ++ ")")),
          actionable := "Create content around strong trends for higher engagement" }
      afterInfluencers ++ [insight3]
    else afterInfluencers
  else afterInfluencers

/-- `generateRecommendations()` (lines 353–393): returns the value of
`this.report.recommendations` after the pushes.  Note that the engagement
check feeds top-tweet records (which have no `public_metrics` field) back
into `calculateAverageEngagement`; the `|| []` after the `flatMap` on
line 374 is dead since `flatMap` never returns a falsy value. -/
def generateRecommendations (r : Report) : List Recommendation :=
  let gaps := r.trends.flatMap (·.contentGaps)
  let gapCounts := gaps.foldl (fun acc g => bumpTheme acc g) []
  let afterGaps := r.recommendations ++ gapCounts.filterMap (fun p =>
    if p.2 > 0 then
      some { type := "content-opportunity",
             content := some p.1,
             priority := if p.2 > 1 then "high" else "medium",
             reasoning := "Missing \"" ++ p.1 ++ "\" angle across " ++ toString p.2 ++ " trends" }
    else none)
  let avgEngagement := calculateAverageEngagement
    ((r.competitors.flatMap (·.topTweets)).map TopTweet.asPost)
  let afterEngagement :=
    if avgEngagement.replies > avgEngagement.likes then
      let rec2 : Recommendation :=
        { type := "engagement-strategy",
          strategy := some "question-driven",
          priority := "high",
          reasoning := "High reply rate suggests question-based content works well" }
      afterGaps ++ [rec2]
    else afterGaps
  let rec3 : Recommendation :=
    { type := "posting-strategy",
      frequency := some "daily",
      priority := "high",
      reasoning := "Competitors maintain daily posting for niche relevance" }
  afterEngagement ++ [rec3]

/-- `saveReport()` (lines 398–420) up to the file write: attach the summary
block computed from the current section lengths.  The serialization itself is
an external effect. -/
def saveReport (r : Report) : Report :=
  let s : ReportSummary :=
    { competitorsTracked := r.competitors.length,
      influencersTracked := r.influencers.length,
      trendsIdentified := r.trends.length,
      insightsGenerated := r.insights.length,
      recommendationsProvided := r.recommendations.length }
  { r with summary := some s }

/-! ## Lemmas about the retry loop -/

/-- If attempt `attempt + k` is the first failure whose message looks like an
authentication error, the loop stops right there with the wrapped auth
error. -/
theorem executeCommandGo_auth (world : ToolOracle) (msg : String) :
    ∀ (k attempt remaining : Nat) (lastErr : Option String) (defaultMsg : String),
      k < remaining →
      world (attempt + k) = .failure msg →
      isAuthMsg msg = true →
      (∀ j, j < k → ∃ m, world (attempt + j) = .failure m ∧ isAuthMsg m = false) →
      executeCommandGo world attempt lastErr defaultMsg remaining
        = ⟨attempt + k + 1, .authError msg⟩ := by
  intro k
  induction k with
  | zero =>
    intro attempt remaining lastErr defaultMsg hk hw ha _
    rw [Nat.add_zero] at hw
    match remaining, hk with
    | r + 1, _ =>
      simp only [executeCommandGo, hw, ha, if_true]
  | succ k ih =>
    intro attempt remaining lastErr defaultMsg hk hw ha hprev
    match remaining, hk with
    | r + 1, hk =>
      obtain ⟨m, hm, hma⟩ := hprev 0 (Nat.succ_pos k)
      rw [Nat.add_zero] at hm
      simp only [executeCommandGo, hm, hma, Bool.false_eq_true, if_false]
      have hw' : world (attempt + 1 + k) = .failure msg := by
        have e : attempt + 1 + k = attempt + (k + 1) := by omega
        rw [e]; exact hw
      have hprev' : ∀ j, j < k → ∃ m', world (attempt + 1 + j) = .failure m'
          ∧ isAuthMsg m' = false := by
        intro j hj
        obtain ⟨m', hm', hma'⟩ := hprev (j + 1) (by omega)
        refine ⟨m', ?_, hma'⟩
        have e : attempt + 1 + j = attempt + (j + 1) := by omega
        rw [e]; exact hm'
      rw [ih (attempt + 1) r (some m) defaultMsg (by omega) hw' ha hprev']
      have e : attempt + 1 + k + 1 = attempt + (k + 1) + 1 := by omega
      rw [e]

/-- If every attempt fails with a non-auth message, the loop runs out of
fuel and rethrows the last failure. -/
theorem executeCommandGo_exhaust (world : ToolOracle) (msgf : Nat → String)
    (hfail : ∀ j, world j = .failure (msgf j) ∧ isAuthMsg (msgf j) = false) :
    ∀ (remaining attempt : Nat) (lastErr : Option String) (defaultMsg : String),
      0 < remaining →
      executeCommandGo world attempt lastErr defaultMsg remaining
        = ⟨attempt + remaining, .lastError (msgf (attempt + remaining - 1))⟩ := by
  intro remaining
  induction remaining with
  | zero => intro _ _ _ h; omega
  | succ r ih =>
    intro attempt lastErr defaultMsg _
    obtain ⟨hw, ha⟩ := hfail attempt
    simp only [executeCommandGo, hw, ha, Bool.false_eq_true, if_false]
    cases r with
    | zero =>
      simp only [executeCommandGo]
      have e : attempt + 1 - 1 = attempt := by omega
      rw [e]
    | succ r' =>
      rw [ih (attempt + 1) (some (msgf attempt)) defaultMsg (by omega)]
      have e : attempt + 1 + (r' + 1) = attempt + (r' + 1 + 1) := by omega
      rw [e]

/-! ## C1: authentication failures abort the retry loop -/

/-- C1: for every command, argument list and options, if attempt `k` of
`executeCommand` fails with an error whose message contains "auth" or
"cookie" (the earlier attempts having failed with non-auth messages, which is
how attempt `k` is reached), then no further attempt is made — `k + 1`
attempts in total, exactly one when `k = 0` — and the call fails immediately
with the authentication-specific error wrapping that message. -/
theorem executeCommand_auth_aborts (command : String) (args : List String) (retries : Nat)
    (format : String) (world : ToolOracle) (k : Nat) (msg : String)
    (hk : k < retries) (hfail : world k = .failure msg) (hauth : isAuthMsg msg = true)
    (hprev : ∀ j, j < k → ∃ m, world j = .failure m ∧ isAuthMsg m = false) :
    executeCommand command args retries format world = ⟨k + 1, .authError msg⟩ := by
  unfold executeCommand
  have h := executeCommandGo_auth world msg k 0 retries none
    ("Command failed after " ++ toString retries ++ " retries: " ++ command ++ " "
      ++ String.intercalate " " (buildFinalArgs command args format)) hk
    (by simpa using hfail) hauth (by simpa using hprev)
  simpa using h

/-- Witness for C1: a first attempt failing with a "cookie" message makes
exactly one attempt and surfaces the authentication error. -/
theorem executeCommand_auth_aborts_witness :
    executeCommand "search" ["-n", "5", "from:acme"] 3 "json"
      (fun _ => .failure "could not load cookie jar")
      = ⟨1, .authError "could not load cookie jar"⟩ :=
  executeCommand_auth_aborts "search" ["-n", "5", "from:acme"] 3 "json"
    (fun _ => .failure "could not load cookie jar") 0 "could not load cookie jar"
    (by decide) rfl (by decide) (fun j hj => absurd hj (Nat.not_lt_zero j))

/-! ## C2: transient exhaustion surfaces the last error; wrappers swallow it -/

/-- C2: if the external tool fails with a non-auth (transient) error on every
attempt, `executeCommand` makes exactly `retries` attempts and fails with the
last observed error, and every fetch wrapper catches the failure and returns
the empty list (`none`, i.e. `null`, for `readTweet`) instead of
propagating it. -/
theorem transient_exhaustion (parse : JsonParser) (command : String) (args : List String)
    (format : String) (retries : Nat) (world : ToolOracle) (msgf : Nat → String)
    (query tweetId : String) (limit : Nat)
    (hr : 0 < retries)
    (hfail : ∀ j, world j = .failure (msgf j) ∧ isAuthMsg (msgf j) = false) :
    executeCommand command args retries format world
      = ⟨retries, .lastError (msgf (retries - 1))⟩
    ∧ search parse query limit world = []
    ∧ getMentions parse limit world = []
    ∧ getBookmarks parse limit world = []
    ∧ getReplies parse tweetId limit world = []
    ∧ getThread parse tweetId world = []
    ∧ readTweet parse tweetId world = none := by
  have hgo := executeCommandGo_exhaust world msgf hfail
  have hexec : ∀ (c : String) (a : List String) (f : String) (n : Nat), 0 < n →
      executeCommand c a n f world = ⟨n, .lastError (msgf (n - 1))⟩ := by
    intro c a f n hn
    unfold executeCommand
    have h := hgo n 0 none
      ("Command failed after " ++ toString n ++ " retries: " ++ c ++ " "
        ++ String.intercalate " " (buildFinalArgs c a f)) hn
    simpa using h
  refine ⟨hexec _ _ _ _ hr, ?_, ?_, ?_, ?_, ?_, ?_⟩ <;>
    simp [search, getMentions, getBookmarks, getReplies, getThread, readTweet, fetchList,
      hexec _ _ _ 3 (by norm_num)]

/-- Witness for C2: three transient "network timeout" failures exhaust the
default three retries; the exhausted command surfaces the last error and each
wrapper returns its empty value. -/
theorem transient_exhaustion_witness :
    executeCommand "search" ["-n", "10", "q"] 3 "json" (fun _ => .failure "network timeout")
      = ⟨3, .lastError "network timeout"⟩
    ∧ search (fun _ => none) "q" 10 (fun _ => .failure "network timeout") = []
    ∧ getMentions (fun _ => none) 10 (fun _ => .failure "network timeout") = []
    ∧ getBookmarks (fun _ => none) 10 (fun _ => .failure "network timeout") = []
    ∧ getReplies (fun _ => none) "123" 10 (fun _ => .failure "network timeout") = []
    ∧ getThread (fun _ => none) "123" (fun _ => .failure "network timeout") = []
    ∧ readTweet (fun _ => none) "123" (fun _ => .failure "network timeout") = none :=
  transient_exhaustion (fun _ => none) "search" ["-n", "10", "q"] "json" 3
    (fun _ => .failure "network timeout") (fun _ => "network timeout") "q" "123" 10
    (by decide) (fun _ => ⟨rfl, by show isAuthMsg "network timeout" = false; decide⟩)

/-! ## C3: normalization of single-object responses -/

/-- A first attempt that succeeds returns its stdout after exactly one
attempt. -/
theorem executeCommandGo_first_success (world : ToolOracle) (attempt : Nat)
    (lastErr : Option String) (defaultMsg : String) (remaining : Nat) (out : String)
    (hok : world attempt = .success out) :
    executeCommandGo world attempt lastErr defaultMsg (remaining + 1) = ⟨attempt + 1, .ok out⟩ := by
  simp only [executeCommandGo, hok]

/-- Parser used in concrete gateway examples: the output `"OBJ"` parses to
the empty JSON object, everything else is malformed. -/
def objParser : JsonParser := fun s => if s = "OBJ" then some (.obj []) else none

/-- Oracle whose tool call always succeeds with stdout `"OBJ"`. -/
def objWorld : ToolOracle := fun _ => .success "OBJ"

/-- C3 counterexample: `readTweet` (`bird-utils.js` lines 172–180) is a fetch
operation of the system, yet on a response parsing to a single JSON object it
returns the bare object itself — which is not the one-element list containing
the object. -/
theorem readTweet_bare_object :
    readTweet objParser "123" objWorld = some (JsonVal.obj [])
    ∧ JsonVal.obj [] ≠ JsonVal.arr [JsonVal.obj []] := by
  refine ⟨rfl, fun h => ?_⟩
  cases h

/-- C3 amended: every list-returning fetch operation (`search`,
`getMentions`, `getBookmarks`, `getReplies`, `getThread`) normalizes an
output parsing to a single non-array JSON value into the one-element list
containing it; `readTweet` alone returns the parsed value bare. -/
theorem single_object_normalized (parse : JsonParser) (world : ToolOracle)
    (query tweetId : String) (limit : Nat) (out : String) (v : JsonVal)
    (hok : world 0 = .success out) (hp : parse out = some v) (hv : v.isArr = false) :
    search parse query limit world = [v]
    ∧ getMentions parse limit world = [v]
    ∧ getBookmarks parse limit world = [v]
    ∧ getReplies parse tweetId limit world = [v]
    ∧ getThread parse tweetId world = [v]
    ∧ readTweet parse tweetId world = some v := by
  have hexec : ∀ (c : String) (a : List String),
      executeCommand c a 3 "json" world = ⟨1, .ok out⟩ := by
    intro c a
    unfold executeCommand
    exact executeCommandGo_first_success world 0 none _ 2 out hok
  refine ⟨?_, ?_, ?_, ?_, ?_, ?_⟩ <;>
    simp [search, getMentions, getBookmarks, getReplies, getThread, readTweet, fetchList,
      parseJSON, hexec, hp, hv]

/-- Witness for the amended C3 at a concrete single-object response. -/
theorem single_object_normalized_witness :
    search objParser "q" 10 objWorld = [JsonVal.obj []]
    ∧ getMentions objParser 10 objWorld = [JsonVal.obj []]
    ∧ getBookmarks objParser 10 objWorld = [JsonVal.obj []]
    ∧ getReplies objParser "123" 10 objWorld = [JsonVal.obj []]
    ∧ getThread objParser "123" objWorld = [JsonVal.obj []]
    ∧ readTweet objParser "123" objWorld = some (JsonVal.obj []) :=
  single_object_normalized objParser objWorld "q" "123" 10 "OBJ" (JsonVal.obj [])
    rfl rfl rfl

/-! ## Arithmetic lemmas about `jsRound` -/

/-- `Math.round` is monotone. -/
theorem jsRound_mono {q r : ℚ} (h : q ≤ r) : jsRound q ≤ jsRound r :=
  Int.floor_le_floor (by linarith)

/-- `Math.round` fixes integers. -/
theorem jsRound_intCast (n : ℤ) : jsRound ((n : ℚ)) = n := by
  unfold jsRound
  rw [Int.floor_int_add]
  norm_num

/-- `Math.round` of a nonnegative number is nonnegative. -/
theorem jsRound_nonneg {q : ℚ} (h : 0 ≤ q) : 0 ≤ jsRound q := by
  have h0 : jsRound 0 = 0 := by
    have := jsRound_intCast 0
    simpa using this
  calc (0 : ℤ) = jsRound 0 := h0.symm
    _ ≤ jsRound q := jsRound_mono h

/-- The rounded value is within one half of its argument: this is what
"rounded to the nearest integer" means. -/
theorem jsRound_dist (q : ℚ) : |((jsRound q : ℚ)) - q| ≤ 1/2 := by
  unfold jsRound
  rw [abs_le]
  have h1 := Int.floor_le (q + 1/2)
  have h2 := Int.lt_floor_add_one (q + 1/2)
  constructor <;> push_cast at h1 h2 ⊢ <;> linarith

/-- Clamping to `100` commutes with `Math.round`
(`Math.min(100, Math.round(x)) = Math.round(Math.min(100, x))`). -/
theorem min100_jsRound (q : ℚ) : min 100 (jsRound q) = jsRound (min 100 q) := by
  rcases le_total q 100 with h | h
  · rw [min_eq_right h, min_eq_right]
    calc jsRound q ≤ jsRound ((100 : ℤ) : ℚ) := jsRound_mono (by push_cast; linarith)
      _ = 100 := jsRound_intCast 100
  · rw [min_eq_left h]
    have : jsRound ((100 : ℤ) : ℚ) ≤ jsRound q := jsRound_mono (by push_cast; linarith)
    rw [jsRound_intCast] at this
    rw [min_eq_left this]
    have e : (100 : ℚ) = ((100 : ℤ) : ℚ) := by norm_num
    rw [e, jsRound_intCast]

/-! ## C9: `calculateAverageEngagement` -/

/-- The `reduce` accumulator sums each metric. -/
theorem foldl_engagementTotals (tweets : List Post) :
    ∀ init : EngagementTotals,
      tweets.foldl
        (fun (acc : EngagementTotals) t =>
          ⟨acc.likes + likeCount t, acc.retweets + retweetCount t, acc.replies + replyCount t⟩)
        init
      = ⟨init.likes + (tweets.map likeCount).sum,
         init.retweets + (tweets.map retweetCount).sum,
         init.replies + (tweets.map replyCount).sum⟩ := by
  induction tweets with
  | nil => intro init; simp
  | cons t ts ih =>
    intro init
    simp only [List.foldl_cons, List.map_cons, List.sum_cons, ih]
    simp [Nat.add_assoc]

/-- Closed form of the engagement summary on a non-empty list: each component
is the rounding of that metric's mean. -/
theorem calculateAverageEngagement_eq (tweets : List Post) (h : tweets ≠ []) :
    calculateAverageEngagement tweets
      = ⟨jsRound (((tweets.map likeCount).sum : ℚ) / tweets.length),
         jsRound (((tweets.map retweetCount).sum : ℚ) / tweets.length),
         jsRound (((tweets.map replyCount).sum : ℚ) / tweets.length)⟩ := by
  have hne : ¬(tweets.length = 0) := by
    rw [List.length_eq_zero]; exact h
  unfold calculateAverageEngagement
  rw [if_neg hne, foldl_engagementTotals]
  simp

/-- Each component of the engagement summary is nonnegative. -/
theorem calculateAverageEngagement_nonneg (tweets : List Post) :
    0 ≤ (calculateAverageEngagement tweets).likes
    ∧ 0 ≤ (calculateAverageEngagement tweets).retweets
    ∧ 0 ≤ (calculateAverageEngagement tweets).replies := by
  by_cases h : tweets = []
  · subst h
    refine ⟨?_, ?_, ?_⟩ <;> simp [calculateAverageEngagement]
  · rw [calculateAverageEngagement_eq tweets h]
    refine ⟨jsRound_nonneg ?_, jsRound_nonneg ?_, jsRound_nonneg ?_⟩ <;> positivity

/-- C9: for the empty list the engagement summary is exactly zero-filled, and
for a non-empty list each component is the mean of that metric rounded with
`Math.round` — in particular each component differs from the exact mean by at
most one half ("rounded to the nearest integer"). -/
theorem calculateAverageEngagement_spec :
    calculateAverageEngagement [] = ⟨0, 0, 0⟩
    ∧ ∀ tweets : List Post, tweets ≠ [] →
        calculateAverageEngagement tweets
          = ⟨jsRound (((tweets.map likeCount).sum : ℚ) / tweets.length),
             jsRound (((tweets.map retweetCount).sum : ℚ) / tweets.length),
             jsRound (((tweets.map replyCount).sum : ℚ) / tweets.length)⟩
        ∧ |(((calculateAverageEngagement tweets).likes : ℚ))
            - ((tweets.map likeCount).sum : ℚ) / tweets.length| ≤ 1/2
        ∧ |(((calculateAverageEngagement tweets).retweets : ℚ))
            - ((tweets.map retweetCount).sum : ℚ) / tweets.length| ≤ 1/2
        ∧ |(((calculateAverageEngagement tweets).replies : ℚ))
            - ((tweets.map replyCount).sum : ℚ) / tweets.length| ≤ 1/2 := by
  constructor
  · rfl
  · intro tweets h
    have heq := calculateAverageEngagement_eq tweets h
    refine ⟨heq, ?_, ?_, ?_⟩ <;> rw [heq] <;> exact jsRound_dist _

/-- The worked-example post: 100 likes, 50 retweets, 10 replies. -/
def trendPost : Post :=
  { text := some "t", full_text := none, author_handle := some "acme",
    user_screen_name := none, created_at := none,
    public_metrics := some ⟨some 100, some 50, some 10, none⟩ }

/-- Witness for C9 at the worked-example post. -/
theorem calculateAverageEngagement_spec_witness :
    calculateAverageEngagement [trendPost]
      = ⟨jsRound ((([trendPost].map likeCount).sum : ℚ) / [trendPost].length),
         jsRound ((([trendPost].map retweetCount).sum : ℚ) / [trendPost].length),
         jsRound ((([trendPost].map replyCount).sum : ℚ) / [trendPost].length)⟩
    ∧ |(((calculateAverageEngagement [trendPost]).likes : ℚ))
        - (([trendPost].map likeCount).sum : ℚ) / [trendPost].length| ≤ 1/2
    ∧ |(((calculateAverageEngagement [trendPost]).retweets : ℚ))
        - (([trendPost].map retweetCount).sum : ℚ) / [trendPost].length| ≤ 1/2
    ∧ |(((calculateAverageEngagement [trendPost]).replies : ℚ))
        - (([trendPost].map replyCount).sum : ℚ) / [trendPost].length| ≤ 1/2 :=
  calculateAverageEngagement_spec.2 [trendPost] (List.cons_ne_nil _ _)

/-! ## C5: `assessCollaborationPotential` -/

/-- C5: the collaboration score equals
`round(min(100, (0.3·avgLikes + 0.4·avgRetweets + 0.3·avgReplies) / 10))`
over the engagement summary, always lies in the closed range `[0, 100]`
whatever the input magnitude, and the level is "high" above score 70,
"medium" above 40 and up to 70, and "low" otherwise. -/
theorem assessCollaborationPotential_spec (tweets : List Post) :
    (assessCollaborationPotential tweets).score
      = jsRound (min 100 (((3/10) * ((calculateAverageEngagement tweets).likes : ℚ)
          + (4/10) * ((calculateAverageEngagement tweets).retweets : ℚ)
          + (3/10) * ((calculateAverageEngagement tweets).replies : ℚ)) / 10))
    ∧ 0 ≤ (assessCollaborationPotential tweets).score
    ∧ (assessCollaborationPotential tweets).score ≤ 100
    ∧ (assessCollaborationPotential tweets).level
      = (if 70 < (assessCollaborationPotential tweets).score then "high"
         else if 40 < (assessCollaborationPotential tweets).score then "medium"
         else "low") := by
  obtain ⟨hl, hr, hp⟩ := calculateAverageEngagement_nonneg tweets
  have hl' : (0 : ℚ) ≤ ((calculateAverageEngagement tweets).likes : ℚ) := by exact_mod_cast hl
  have hr' : (0 : ℚ) ≤ ((calculateAverageEngagement tweets).retweets : ℚ) := by exact_mod_cast hr
  have hp' : (0 : ℚ) ≤ ((calculateAverageEngagement tweets).replies : ℚ) := by exact_mod_cast hp
  have hexpr : (0 : ℚ) ≤ (((calculateAverageEngagement tweets).likes : ℚ) * (3/10)
      + ((calculateAverageEngagement tweets).retweets : ℚ) * (4/10)
      + ((calculateAverageEngagement tweets).replies : ℚ) * (3/10)) / 10 := by
    apply div_nonneg _ (by norm_num)
    nlinarith
  have hscore : (assessCollaborationPotential tweets).score
      = min 100 (jsRound ((((calculateAverageEngagement tweets).likes : ℚ) * (3/10)
          + ((calculateAverageEngagement tweets).retweets : ℚ) * (4/10)
          + ((calculateAverageEngagement tweets).replies : ℚ) * (3/10)) / 10)) := by
    simp [assessCollaborationPotential]
  refine ⟨?_, ?_, ?_, ?_⟩
  · rw [hscore, min100_jsRound]
    congr 2
    ring
  · rw [hscore]
    exact le_min (by norm_num) (jsRound_nonneg hexpr)
  · rw [hscore]
    exact min_le_left _ _
  · simp [assessCollaborationPotential]

/-! ## C6: `calculateTrendStrength` -/

/-- The report state of the worked example: a single trend entry built from
the 100-likes/50-retweets post, no competitors and no influencers. -/
def trendReport : Report :=
  { brand := "b", timestamp := "2026-01-01",
    competitors := [], influencers := [],
    trends := [{ keyword := "x", tweetsFound := 1,
                 topTweets := [toTrendTopTweet trendPost],
                 trendStrength := calculateTrendStrength [trendPost],
                 contentGaps := (identifyContentGaps [trendPost]).getD [] }],
    insights := [], recommendations := [] }

/-- C6: the trend score is `round((avgLikes + avgRetweets) / 2)` and the
level bands test the unrounded strength — "strong" above 100, "moderate"
above 50 up to 100, "weak" otherwise; in particular a single post with 100
likes and 50 retweets yields score 75 and level "moderate", and
`generateInsights` emits no trend-opportunity insight for it. -/
theorem calculateTrendStrength_spec :
    (∀ tweets : List Post,
      (calculateTrendStrength tweets).score
        = jsRound ((((calculateAverageEngagement tweets).likes : ℚ)
            + ((calculateAverageEngagement tweets).retweets : ℚ)) / 2)
      ∧ (calculateTrendStrength tweets).level
        = (if 100 < (((calculateAverageEngagement tweets).likes : ℚ)
              + ((calculateAverageEngagement tweets).retweets : ℚ)) / 2 then "strong"
           else if 50 < (((calculateAverageEngagement tweets).likes : ℚ)
              + ((calculateAverageEngagement tweets).retweets : ℚ)) / 2 then "moderate"
           else "weak"))
    ∧ calculateTrendStrength [trendPost] = ⟨75, "moderate"⟩
    ∧ (generateInsights trendReport).filter (fun i => i.type == "trend-opportunity") = [] := by
  have hts : calculateTrendStrength [trendPost] = ⟨75, "moderate"⟩ := by
    simp [calculateTrendStrength, calculateAverageEngagement, jsRound, likeCount, retweetCount,
      replyCount, trendPost]
    norm_num
  refine ⟨?_, hts, ?_⟩
  · intro tweets
    constructor <;> simp [calculateTrendStrength]
  · simp [generateInsights, trendReport, hts]

/-! ## C7: `identifyContentGaps` -/

/-- The gap fold over the five canonical angles produces exactly the weight
tags of the absent keywords, in canonical order. -/
theorem gapsFold_eq (text : String) :
    contentAngles.foldl
      (fun found angle =>
        if strIncludes text angle.keyword then found else addFoundKey found angle.weight) []
    = (contentAngles.filter (fun a => !strIncludes text a.keyword)).map Angle.weight := by
  cases h1 : strIncludes text "how to" <;>
    cases h2 : strIncludes text "why" <;>
      cases h3 : strIncludes text "case study" <;>
        cases h4 : strIncludes text "mistake" <;>
          cases h5 : strIncludes text "framework" <;>
            simp [contentAngles, addFoundKey, h1, h2, h3, h4, h5]

/-- C7: `identifyContentGaps` returns exactly the weight tags of the
canonical angle-keywords absent from the concatenated lowercased post text;
when all five occur it returns the empty list and when none occurs it returns
all five weight tags. -/
theorem identifyContentGaps_spec (tweets : List Post) (rawTexts : List String)
    (htext : tweets.mapM postTextJS = some rawTexts) :
    identifyContentGaps tweets
      = some ((contentAngles.filter (fun a =>
          !strIncludes (String.intercalate " " (rawTexts.map strToLower)) a.keyword)).map
            Angle.weight)
    ∧ ((∀ a ∈ contentAngles,
          strIncludes (String.intercalate " " (rawTexts.map strToLower)) a.keyword = true) →
        identifyContentGaps tweets = some [])
    ∧ ((∀ a ∈ contentAngles,
          strIncludes (String.intercalate " " (rawTexts.map strToLower)) a.keyword = false) →
        identifyContentGaps tweets
          = some ["tactical", "educational", "proof", "contrarian", "systematic"]) := by
  have heq : identifyContentGaps tweets
      = some ((contentAngles.filter (fun a =>
          !strIncludes (String.intercalate " " (rawTexts.map strToLower)) a.keyword)).map
            Angle.weight) := by
    unfold identifyContentGaps
    rw [htext]
    exact congrArg some (gapsFold_eq (String.intercalate " " (rawTexts.map strToLower)))
  refine ⟨heq, ?_, ?_⟩
  · intro hall
    rw [heq]
    have hfil : contentAngles.filter (fun a =>
        !strIncludes (String.intercalate " " (rawTexts.map strToLower)) a.keyword) = [] := by
      rw [List.filter_eq_nil_iff]
      intro a ha
      simp [hall a ha]
    rw [hfil]
    rfl
  · intro hnone
    rw [heq]
    have hfil : contentAngles.filter (fun a =>
        !strIncludes (String.intercalate " " (rawTexts.map strToLower)) a.keyword)
        = contentAngles := by
      rw [List.filter_eq_self]
      intro a ha
      simp [hnone a ha]
    rw [hfil]
    rfl

/-- Witness for C7: with no posts the joined text is empty, every canonical
keyword is absent, and all five weight tags are reported as gaps. -/
theorem identifyContentGaps_spec_witness :
    identifyContentGaps [] = some ["tactical", "educational", "proof", "contrarian", "systematic"] :=
  (identifyContentGaps_spec [] [] rfl).2.2 (by decide)

/-! ## C8: `extractThemes` -/

/-- Bumping a key leaves the key list unchanged when present, appends it when
absent (JS object insertion order). -/
theorem bumpTheme_keys (m : List (String × Nat)) (k : String) :
    (bumpTheme m k).map Prod.fst
      = if k ∈ m.map Prod.fst then m.map Prod.fst else m.map Prod.fst ++ [k] := by
  induction m with
  | nil => simp [bumpTheme]
  | cons p rest ih =>
    obtain ⟨k', c⟩ := p
    cases h : k' == k
    · have hne : ¬(k = k') := by
        intro he
        rw [he] at h
        simp at h
      by_cases hmem : k ∈ rest.map Prod.fst
      · simp [bumpTheme, h, ih, hmem, hne]
      · simp [bumpTheme, h, ih, hmem, hne]
    · have heq : k' = k := by simpa using h
      subst heq
      simp [bumpTheme, h]

/-- Membership in the key list after a bump. -/
theorem bumpTheme_keys_mem (m : List (String × Nat)) (k x : String) :
    x ∈ (bumpTheme m k).map Prod.fst ↔ x ∈ m.map Prod.fst ∨ x = k := by
  rw [bumpTheme_keys]
  by_cases hmem : k ∈ m.map Prod.fst
  · rw [if_pos hmem]
    constructor
    · exact Or.inl
    · rintro (h | rfl)
      · exact h
      · exact hmem
  · rw [if_neg hmem]
    simp

/-- Bumping preserves distinctness of the keys. -/
theorem bumpTheme_keys_nodup (m : List (String × Nat)) (k : String)
    (h : (m.map Prod.fst).Nodup) : ((bumpTheme m k).map Prod.fst).Nodup := by
  rw [bumpTheme_keys]
  by_cases hmem : k ∈ m.map Prod.fst
  · rw [if_pos hmem]; exact h
  · rw [if_neg hmem]
    simp [List.nodup_append, h, hmem]

/-- Keys present after processing one keyword sublist for one text. -/
theorem themeStepAux_mem (text : String) (kl : List String) :
    ∀ (m : List (String × Nat)) (x : String),
      (x ∈ (kl.foldl
        (fun m keyword =>
          if strIncludes text (strToLower keyword) then bumpTheme m keyword else m) m).map
          Prod.fst)
      ↔ x ∈ m.map Prod.fst ∨ (x ∈ kl ∧ strIncludes text (strToLower x) = true) := by
  induction kl with
  | nil => simp
  | cons keyword rest ih =>
    intro m x
    simp only [List.foldl_cons]
    cases hc : strIncludes text (strToLower keyword)
    · rw [if_neg (by simp)]
      rw [ih]
      constructor
      · rintro (h | ⟨hx, hP⟩)
        · exact Or.inl h
        · exact Or.inr ⟨List.mem_cons_of_mem _ hx, hP⟩
      · rintro (h | ⟨hx, hP⟩)
        · exact Or.inl h
        · rcases List.mem_cons.mp hx with rfl | hx'
          · simp [hc] at hP
          · exact Or.inr ⟨hx', hP⟩
    · rw [if_pos rfl]
      rw [ih]
      constructor
      · rintro (h | ⟨hx, hP⟩)
        · rcases (bumpTheme_keys_mem m keyword x).mp h with h' | rfl
          · exact Or.inl h'
          · exact Or.inr ⟨List.mem_cons_self _ _, hc⟩
        · exact Or.inr ⟨List.mem_cons_of_mem _ hx, hP⟩
      · rintro (h | ⟨hx, hP⟩)
        · exact Or.inl ((bumpTheme_keys_mem m keyword x).mpr (Or.inl h))
        · rcases List.mem_cons.mp hx with rfl | hx'
          · exact Or.inl ((bumpTheme_keys_mem m x x).mpr (Or.inr rfl))
          · exact Or.inr ⟨hx', hP⟩

/-- One text step: a keyword's key is present afterwards iff it was present
before or the lowercased text contains it. -/
theorem themeStep_mem (keywords : List String) (m : List (String × Nat)) (raw : String)
    (x : String) :
    x ∈ (themeStep keywords m raw).map Prod.fst
      ↔ x ∈ m.map Prod.fst
        ∨ (x ∈ keywords ∧ strIncludes (strToLower raw) (strToLower x) = true) :=
  themeStepAux_mem (strToLower raw) keywords m x

/-- One text step preserves distinctness of the keys. -/
theorem themeStep_nodup (keywords : List String) (raw : String) :
    ∀ m : List (String × Nat), (m.map Prod.fst).Nodup
      → ((themeStep keywords m raw).map Prod.fst).Nodup := by
  unfold themeStep
  generalize strToLower raw = text
  induction keywords with
  | nil => intro m h; exact h
  | cons keyword rest ih =>
    intro m h
    simp only [List.foldl_cons]
    cases hc : strIncludes text (strToLower keyword)
    · rw [if_neg (by simp)]
      exact ih m h
    · rw [if_pos rfl]
      exact ih _ (bumpTheme_keys_nodup m keyword h)

/-- Keys of the full nested fold: exactly the configured keywords occurring
in at least one lowercased text. -/
theorem themesFoldAux_mem (keywords : List String) (rawTexts : List String) :
    ∀ (m : List (String × Nat)) (x : String),
      x ∈ ((rawTexts.foldl (themeStep keywords) m).map Prod.fst)
      ↔ x ∈ m.map Prod.fst
        ∨ (x ∈ keywords ∧ ∃ raw ∈ rawTexts, strIncludes (strToLower raw) (strToLower x) = true) := by
  induction rawTexts with
  | nil => simp
  | cons raw rest ih =>
    intro m x
    simp only [List.foldl_cons]
    rw [ih, themeStep_mem]
    constructor
    · rintro ((h | ⟨hk, hP⟩) | ⟨hk, raw', hraw', hP⟩)
      · exact Or.inl h
      · exact Or.inr ⟨hk, raw, List.mem_cons_self _ _, hP⟩
      · exact Or.inr ⟨hk, raw', List.mem_cons_of_mem _ hraw', hP⟩
    · rintro (h | ⟨hk, raw', hraw', hP⟩)
      · exact Or.inl (Or.inl h)
      · rcases List.mem_cons.mp hraw' with rfl | hraw''
        · exact Or.inl (Or.inr ⟨hk, hP⟩)
        · exact Or.inr ⟨hk, raw', hraw'', hP⟩

/-- The nested fold keeps the keys distinct. -/
theorem themesFold_nodup (keywords : List String) (rawTexts : List String) :
    ((themesFold keywords rawTexts).map Prod.fst).Nodup := by
  unfold themesFold
  have h : ∀ (m : List (String × Nat)), (m.map Prod.fst).Nodup
      → ((rawTexts.foldl (themeStep keywords) m).map Prod.fst).Nodup := by
    induction rawTexts with
    | nil => intro m h; exact h
    | cons raw rest ih =>
      intro m h
      simp only [List.foldl_cons]
      exact ih _ (themeStep_nodup keywords raw m h)
  exact h [] (by simp)

/-- First demo post: contains "AI automation" and "Claude Code"
(case-insensitively), not "newsletter growth". -/
def demoPost1 : Post :=
  { text := some "Loving AI Automation with Claude Code today", full_text := none,
    author_handle := none, user_screen_name := none, created_at := none,
    public_metrics := none }

/-- Second demo post: contains only "Claude Code". -/
def demoPost2 : Post :=
  { text := some "Claude Code rocks", full_text := none,
    author_handle := none, user_screen_name := none, created_at := none,
    public_metrics := none }

/-- C8: `extractThemes` returns one entry per configured keyword occurring
case-insensitively in at least one post text, no entry for the others, sorted
descending by frequency; with the three demo keywords and only the first two
present it returns exactly those two entries, highest frequency first. -/
theorem extractThemes_spec (keywords : List String) (tweets : List Post) (rawTexts : List String)
    (htext : tweets.mapM postTextJS = some rawTexts) :
    (∃ entries : List ThemeEntry,
      extractThemes keywords tweets = some entries
      ∧ (entries.map ThemeEntry.theme).Nodup
      ∧ (∀ k : String, k ∈ entries.map ThemeEntry.theme ↔
          (k ∈ keywords ∧ ∃ raw ∈ rawTexts, strIncludes (strToLower raw) (strToLower k) = true))
      ∧ entries.Pairwise (fun a b => b.frequency ≤ a.frequency))
    ∧ extractThemes ["AI automation", "Claude Code", "newsletter growth"] [demoPost1, demoPost2]
      = some [⟨"Claude Code", 2⟩, ⟨"AI automation", 1⟩] := by
  constructor
  · haveI htotal : IsTotal ThemeEntry (fun a b => b.frequency ≤ a.frequency) :=
      ⟨fun a b => le_total _ _⟩
    haveI htrans : IsTrans ThemeEntry (fun a b => b.frequency ≤ a.frequency) :=
      ⟨fun _ _ _ hab hbc => le_trans hbc hab⟩
    refine ⟨sortDescBy ThemeEntry.frequency
      ((themesFold keywords rawTexts).map fun p => ⟨p.1, p.2⟩), ?_, ?_, ?_, ?_⟩
    · unfold extractThemes
      rw [htext]
    · have hperm := List.perm_insertionSort
        (fun (a b : ThemeEntry) => b.frequency ≤ a.frequency)
        ((themesFold keywords rawTexts).map fun p => ⟨p.1, p.2⟩)
      have hmap : (((themesFold keywords rawTexts).map
            (fun p => (⟨p.1, p.2⟩ : ThemeEntry))).map ThemeEntry.theme)
          = (themesFold keywords rawTexts).map Prod.fst := by
        rw [List.map_map]
        rfl
      unfold sortDescBy
      rw [(hperm.map ThemeEntry.theme).nodup_iff]
      rw [hmap]
      exact themesFold_nodup keywords rawTexts
    · intro k
      have hperm := List.perm_insertionSort
        (fun (a b : ThemeEntry) => b.frequency ≤ a.frequency)
        ((themesFold keywords rawTexts).map fun p => ⟨p.1, p.2⟩)
      have hmap : (((themesFold keywords rawTexts).map
            (fun p => (⟨p.1, p.2⟩ : ThemeEntry))).map ThemeEntry.theme)
          = (themesFold keywords rawTexts).map Prod.fst := by
        rw [List.map_map]
        rfl
      unfold sortDescBy
      rw [(hperm.map ThemeEntry.theme).mem_iff, hmap]
      unfold themesFold
      rw [themesFoldAux_mem]
      simp
    · exact List.sorted_insertionSort _ _
  · decide

/-- Witness for C8 at the demo posts: both the abstract description and the
concrete two-entry result. -/
theorem extractThemes_spec_witness :
    (∃ entries : List ThemeEntry,
      extractThemes ["AI automation", "Claude Code", "newsletter growth"]
          [demoPost1, demoPost2] = some entries
      ∧ (entries.map ThemeEntry.theme).Nodup
      ∧ (∀ k : String, k ∈ entries.map ThemeEntry.theme ↔
          (k ∈ ["AI automation", "Claude Code", "newsletter growth"]
            ∧ ∃ raw ∈ ["Loving AI Automation with Claude Code today", "Claude Code rocks"],
                strIncludes (strToLower raw) (strToLower k) = true))
      ∧ entries.Pairwise (fun a b => b.frequency ≤ a.frequency))
    ∧ extractThemes ["AI automation", "Claude Code", "newsletter growth"] [demoPost1, demoPost2]
      = some [⟨"Claude Code", 2⟩, ⟨"AI automation", 1⟩] :=
  extractThemes_spec ["AI automation", "Claude Code", "newsletter growth"]
    [demoPost1, demoPost2]
    ["Loving AI Automation with Claude Code today", "Claude Code rocks"] rfl

/-! ## C4: the engagement-strategy recommendation is dead code -/

/-- Top-post records have no `public_metrics` field, so feeding them back
into `calculateAverageEngagement` reads every metric as 0. -/
theorem calcAvg_topTweets_zero (tops : List TopTweet) :
    calculateAverageEngagement (tops.map TopTweet.asPost) = ⟨0, 0, 0⟩ := by
  by_cases h : tops = []
  · subst h; rfl
  · have hne : tops.map TopTweet.asPost ≠ [] := by simpa using h
    rw [calculateAverageEngagement_eq _ hne]
    have h0 : jsRound 0 = 0 := by simpa using jsRound_intCast 0
    have hf1 : (likeCount ∘ TopTweet.asPost) = fun _ => (0 : ℕ) := funext fun t => rfl
    have hf2 : (retweetCount ∘ TopTweet.asPost) = fun _ => (0 : ℕ) := funext fun t => rfl
    have hf3 : (replyCount ∘ TopTweet.asPost) = fun _ => (0 : ℕ) := funext fun t => rfl
    have e1 : ((tops.map TopTweet.asPost).map likeCount).sum = 0 := by
      rw [List.map_map, hf1]
      exact List.sum_eq_zero (by simp)
    have e2 : ((tops.map TopTweet.asPost).map retweetCount).sum = 0 := by
      rw [List.map_map, hf2]
      exact List.sum_eq_zero (by simp)
    have e3 : ((tops.map TopTweet.asPost).map replyCount).sum = 0 := by
      rw [List.map_map, hf3]
      exact List.sum_eq_zero (by simp)
    rw [e1, e2, e3]
    simp [h0]

/-- The single top post of the C4 failing input: 1 like, 0 retweets,
5 replies. -/
def c4TopTweet : TopTweet :=
  { text := some "hello", author := none, engagement := ⟨1, 0, 5⟩, createdAt := none }

/-- The single competitor entry of the C4 failing input. -/
def c4Competitor : CompetitorAnalysis :=
  { handle := "a", tweetsAnalyzed := 1, topTweets := [c4TopTweet],
    averageEngagement := ⟨1, 0, 5⟩, contentThemes := [] }

/-- The failing-input report for C4: one competitor whose single top post has
1 like, 0 retweets and 5 replies; no trends. -/
def c4Report : Report :=
  { brand := "b", timestamp := "2026-01-01", competitors := [c4Competitor],
    influencers := [], trends := [], insights := [], recommendations := [] }

/-- C4 (code bug): `generateRecommendations` can never append the
engagement-strategy recommendation, because line 373 feeds the stored
top-post records — whose counts live under `engagement`, not
`public_metrics` — into `calculateAverageEngagement`, so the comparison is
always `0 > 0`.  At the failing input the mean reply count (5) of the
competitors' top posts strictly exceeds the mean like count (1), yet the
output contains no engagement-strategy entry; the fixed posting-strategy
entry is still appended last. -/
theorem engagement_strategy_never_emitted :
    (∀ r : Report,
      (generateRecommendations r).filter (fun rc => rc.type == "engagement-strategy")
        = r.recommendations.filter (fun rc => rc.type == "engagement-strategy"))
    ∧ (((c4Report.competitors.flatMap (·.topTweets)).map
          (fun t => (t.engagement.replies : ℚ))).sum
        / (c4Report.competitors.flatMap (·.topTweets)).length
      > ((c4Report.competitors.flatMap (·.topTweets)).map
          (fun t => (t.engagement.likes : ℚ))).sum
        / (c4Report.competitors.flatMap (·.topTweets)).length)
    ∧ (generateRecommendations c4Report).map Recommendation.type = ["posting-strategy"] := by
  have hgaps : ∀ (gapCounts : List (String × Nat)),
      (gapCounts.filterMap (fun p =>
        if p.2 > 0 then
          some { type := "content-opportunity", content := some p.1,
                 priority := if p.2 > 1 then "high" else "medium",
                 reasoning := "Missing \"" ++ p.1 ++ "\" angle across "
                   ++ toString p.2 ++ " trends" }
        else (none : Option Recommendation))).filter
          (fun rc => rc.type == "engagement-strategy") = [] := by
    intro gapCounts
    rw [List.filter_eq_nil_iff]
    intro rc hrc
    obtain ⟨p, _, hpe⟩ := List.mem_filterMap.mp hrc
    by_cases hpos : p.2 > 0
    · rw [if_pos hpos] at hpe
      injection hpe with hre
      subst hre
      simp
    · rw [if_neg hpos] at hpe
      cases hpe
  refine ⟨?_, ?_, ?_⟩
  · intro r
    unfold generateRecommendations
    rw [calcAvg_topTweets_zero]
    simp only [gt_iff_lt, lt_irrefl, if_false]
    rw [List.filter_append, List.filter_append, hgaps]
    simp
  · simp [c4Report, c4Competitor, c4TopTweet]
  · unfold generateRecommendations
    rw [calcAvg_topTweets_zero]
    simp [c4Report, c4Competitor, c4TopTweet]

/-! ## C10: `saveReport` summary counts -/

/-- C10: at save time each summary field equals the length of the
corresponding report section, and `saveReport` leaves the sections
themselves unchanged. -/
theorem saveReport_summary (r : Report) :
    (saveReport r).summary = some ⟨r.competitors.length, r.influencers.length,
      r.trends.length, r.insights.length, r.recommendations.length⟩
    ∧ (saveReport r).competitors = r.competitors
    ∧ (saveReport r).influencers = r.influencers
    ∧ (saveReport r).trends = r.trends
    ∧ (saveReport r).insights = r.insights
    ∧ (saveReport r).recommendations = r.recommendations :=
  ⟨rfl, rfl, rfl, rfl, rfl, rfl⟩

end BirdIntel
